import Mathlib

/-!
Shallow embedding of the mardiKG_paper2code_linker pipeline
(src/tasks/fetch.py, src/tasks/mardi_kg_query.py, src/tasks/storage.py,
src/tasks/process_pwc_dump.py, src/tasks/mardi_kg_updates.py).

Modelling conventions:
* Python dicts with `.get` access become structures whose fields are
  `Option`-valued (`none` = key absent or value `None`).
* The SQLite table `hits` becomes `List Row`; `INSERT OR REPLACE` keyed on
  the `arxiv_id` primary key becomes an in-place replacement (or append).
* Network I/O is a parameter: the MediaWiki search endpoint is a function
  from the attempt index to `Except String (List SearchResult)`
  (an `error` models a `requests.RequestException`), and the remote
  knowledge-graph write is a function `LinkWrite -> Except String Unit`.
* Wall-clock time (`datetime.now()` timestamps) is a `String` parameter;
  `time.sleep` calls are counted, not timed.
* Thread pools (`ThreadPoolExecutor` + `as_completed`) are flattened to a
  deterministic left-to-right traversal.  In the source every future of a
  pool is submitted before the first result is inspected, and an exception
  raised inside the `as_completed` loop still waits for the already
  submitted futures on context-manager exit; hence every element of the
  pool's work list is executed, and the first error (in traversal order)
  is re-raised afterwards.  The embedding evaluates every element and
  keeps the first error.
-/

/-- Python truthiness of a string-or-None value: `None` and `""` are falsy
(`if not arxiv_id`, `if qid and repo_url and pwc_url`). -/
def truthy_str (o : Option String) : Bool :=
  match o with
  | none => false
  | some s => s ≠ ""

/-- Python truthiness of a boolean-or-None value (`hit.get(k, False)` where
the stored value may be `None`, `0` or `1`). -/
def truthy_bool (o : Option Bool) : Bool :=
  o.getD false

/-- Scanner for `str.replace(pat, rep)`: the `Nat` argument counts
characters still to swallow from a match already emitted; at `0` the
scanner looks for the next occurrence of `pat`.  (Structured this way so
the recursion is structural on the character list.) -/
def replace_aux (pat rep : List Char) : List Char → Nat → List Char
  | [], _ => []
  | _ :: rest, n + 1 => replace_aux pat rep rest n
  | c :: rest, 0 =>
    if pat ≠ [] ∧ pat.isPrefixOf (c :: rest) then
      rep ++ replace_aux pat rep rest (pat.length - 1)
    else
      c :: replace_aux pat rep rest 0

/-- `str.replace(pat, rep)` on character lists: replace every (leftmost,
non-overlapping) occurrence of `pat` by `rep`.  Only called with nonempty
patterns, matching the source's literal patterns. -/
def replace_sub (pat rep s : List Char) : List Char :=
  replace_aux pat rep s 0

/-- One dump entry of the paperswithcode JSON file, as consumed through
`paper.get(...)` in `fetch.py` and `process_pwc_dump.py`. -/
structure Paper where
  paper_arxiv_id : Option String
  repo_url : Option String
  is_official : Option Bool
  mentioned_in_paper : Option Bool
  mentioned_in_github : Option Bool
  paper_url : Option String
deriving DecidableEq, Repr

/-- One entry of the MediaWiki response list `data["query"]["search"]`,
restricted to the fields the code reads (`r.get("title", ...)`,
`r.get("snippet", "")`). -/
structure SearchResult where
  title : Option String
  snippet : Option String
deriving DecidableEq, Repr

/-- A hit dict as built by `query_mardi_kg` and handed to `insert_hits`.
`updated_in_mardi_kg` / `timestamp_added_to_mardikg` are `none` when the
key is absent (the enrichment code never sets them; `insert_hits` applies
`setdefault`). `timestamp_added_to_db` is omitted because `insert_hits`
overwrites it unconditionally. -/
structure Hit where
  qid : Option String
  arxiv_id : String
  title : Option String
  repo_url : Option String
  is_official : Option Bool
  mentioned_in_paper : Option Bool
  mentioned_in_github : Option Bool
  pwc_page : Option String
  snippet : String
  updated_in_mardi_kg : Option Bool
  timestamp_added_to_mardikg : Option String
deriving DecidableEq, Repr

/-- One persisted row of the SQLite `hits` table (schema in
`storage.init_db`): primary key `arxiv_id`, publish flag
`updated_in_mardi_kg` (BOOLEAN DEFAULT 0), two timestamps. -/
structure Row where
  arxiv_id : String
  qid : Option String
  title : Option String
  repo_url : Option String
  is_official : Option Bool
  mentioned_in_paper : Option Bool
  mentioned_in_github : Option Bool
  pwc_page : Option String
  snippet : String
  updated_in_mardi_kg : Bool
  timestamp_added_to_db : Option String
  timestamp_added_to_mardikg : Option String
deriving DecidableEq, Repr

/-! ### storage.py -/

/-- The row written for one hit dict by `insert_hits`' loop body:
`hit.setdefault("updated_in_mardi_kg", 0)`,
`hit["timestamp_added_to_db"] = datetime.now()...`,
`hit.setdefault("timestamp_added_to_mardikg", None)`. -/
def row_of_hit (now : String) (hit : Hit) : Row :=
  { arxiv_id := hit.arxiv_id
    qid := hit.qid
    title := hit.title
    repo_url := hit.repo_url
    is_official := hit.is_official
    mentioned_in_paper := hit.mentioned_in_paper
    mentioned_in_github := hit.mentioned_in_github
    pwc_page := hit.pwc_page
    snippet := hit.snippet
    updated_in_mardi_kg := hit.updated_in_mardi_kg.getD false
    timestamp_added_to_db := some now
    timestamp_added_to_mardikg := hit.timestamp_added_to_mardikg }

/-- `INSERT OR REPLACE INTO hits VALUES (...)`: replace the row with the
same primary key, else append. -/
def upsert_row (db : List Row) (r : Row) : List Row :=
  if db.any (fun x => x.arxiv_id = r.arxiv_id) then
    db.map (fun x => if x.arxiv_id = r.arxiv_id then r else x)
  else
    db ++ [r]

/-- `storage.insert_hits(hits, path)`: upsert each hit in order. -/
def insert_hits (now : String) (hits : List Hit) (db : List Row) : List Row :=
  hits.foldl (fun d h => upsert_row d (row_of_hit now h)) db

/-! ### fetch.py (and the shared response-processing loop of
mardi_kg_query.py — the two loop bodies are textually identical) -/

/-- `"<span class=\"searchmatch\">"`, the opening markup stripped from
snippets. -/
def span_open : String := "<span class=\"searchmatch\">"

/-- `"</span>"`, the closing markup stripped from snippets. -/
def span_close : String := "</span>"

/-- `snippet.replace(span_open, "").replace("</span>", "")`. -/
def clean_snippet (s : String) : String :=
  ⟨replace_sub span_close.toList [] (replace_sub span_open.toList [] s.toList)⟩

/-- Try to match the regex `QID(Q\d+)` at the head of the list: literal
`QIDQ`, then a nonempty greedy run of ASCII digits; return the capture
group `Q\d+`. -/
def qid_at : List Char → Option (List Char)
  | 'Q' :: 'I' :: 'D' :: 'Q' :: rest =>
    let ds := rest.takeWhile Char.isDigit
    if ds.isEmpty then none else some ('Q' :: ds)
  | _ => none

/-- `re.search(r"QID(Q\d+)", s)`: leftmost match of `qid_at`. -/
def qid_search : List Char → Option (List Char)
  | [] => none
  | c :: rest =>
    match qid_at (c :: rest) with
    | some q => some q
    | none => qid_search rest

/-- The loop body of `query_mardi_kg` for one search-result entry
(fetch.py lines 39-55): clean the snippet, extract the QID, copy the
paper's fields. -/
def result_to_hit (arxiv_id : String) (paper : Paper) (r : SearchResult) : Hit :=
  let cs := clean_snippet (r.snippet.getD "")
  { qid := (qid_search cs.toList).map (fun l => (⟨l⟩ : String))
    arxiv_id := arxiv_id
    title := some (r.title.getD "(no title)")
    repo_url := paper.repo_url
    is_official := paper.is_official
    mentioned_in_paper := paper.mentioned_in_paper
    mentioned_in_github := paper.mentioned_in_github
    pwc_page := paper.paper_url
    snippet := cs
    updated_in_mardi_kg := none
    timestamp_added_to_mardikg := none }

/-- The single placeholder hit appended when the search returned no
results (fetch.py lines 57-69). -/
def no_match_hit (arxiv_id : String) (paper : Paper) : Hit :=
  { qid := none
    arxiv_id := arxiv_id
    title := none
    repo_url := paper.repo_url
    is_official := paper.is_official
    mentioned_in_paper := paper.mentioned_in_paper
    mentioned_in_github := paper.mentioned_in_github
    pwc_page := paper.paper_url
    snippet := ""
    updated_in_mardi_kg := none
    timestamp_added_to_mardikg := none }

/-- Turn the response's `query.search` list into the returned hit list:
map the loop body, then `if not results: results.append(placeholder)`. -/
def results_of_response (arxiv_id : String) (paper : Paper)
    (search : List SearchResult) : List Hit :=
  let results := search.map (result_to_hit arxiv_id paper)
  if results.isEmpty then [no_match_hit arxiv_id paper] else results

namespace Fetch

/-- `tasks.fetch.query_mardi_kg` (the variant imported by
`process_pwc_dump`): one single `requests.post`; a raised
`RequestException`/HTTP error propagates immediately.  `net i` is the
outcome of the `i`-th network attempt; this variant only ever performs
attempt `0`. -/
def query_mardi_kg (net : Nat → Except String (List SearchResult))
    (arxiv_id : String) (paper : Paper) : Except String (List Hit) :=
  match net 0 with
  | .error e => .error e
  | .ok search => .ok (results_of_response arxiv_id paper search)

end Fetch

/-! ### mardi_kg_query.py (retry variant — defined in the repository but
imported by nothing; `process_pwc_dump` imports `tasks.fetch`) -/

/-- The safe-character class of `shlex.quote` (ASCII letters, digits,
underscore, and the characters at-sign, percent, plus, equals, colon,
comma, dot, slash, hyphen). -/
def shlex_safe (c : Char) : Bool :=
  c.isAlphanum || c = '_' || c = '@' || c = '%' || c = '+' || c = '=' ||
    c = ':' || c = ',' || c = '.' || c = '/' || c = '-'

/-- A single-quote character, written via its code point. -/
def squote : String := ⟨[Char.ofNat 39]⟩

/-- `shlex.quote(s)`: empty string becomes two quotes; all-safe strings
pass through; otherwise wrap in single quotes, escaping embedded single
quotes. -/
def shlex_quote (s : String) : String :=
  if s = "" then squote ++ squote
  else if s.toList.all shlex_safe then s
  else squote ++
    (⟨replace_sub squote.toList (squote ++ "\"" ++ squote ++ "\"" ++ squote).toList s.toList⟩ : String)
    ++ squote

/-- `generate_curl_command(url, params)` with the default
`json_data=False` (the only call passes form data): join the params with
`&` and `=`, quote both pieces.  The unused `json_data=True` branch is not
modelled. -/
def generate_curl_command (url : String) (params : List (String × String)) : String :=
  let data_str := String.intercalate "&" (params.map (fun p => p.1 ++ "=" ++ p.2))
  "curl -X POST " ++ shlex_quote url ++ " -d " ++ shlex_quote data_str

/-- The fixed MediaWiki endpoint. -/
def base_url : String := "https://portal.mardi4nfdi.de/w/api.php"

/-- The POST parameters built for one arXiv id. -/
def query_params (arxiv_id : String) : List (String × String) :=
  [("action", "query"), ("list", "search"),
   ("srsearch", "arXiv" ++ arxiv_id ++ "MaRDI"),
   ("srnamespace", "4206"), ("format", "json")]

/-- Outcome of the `for attempt in range(1, max_retries + 1)` loop of
`mardi_kg_query.query_mardi_kg`: arguments are the network oracle, the
index of the next attempt, the number of attempts left, the last caught
exception, and the number of `time.sleep(retry_delay)` calls so far.
Returns the loop's result (`error last` models reaching the loop's `else`
clause and re-raising `last_exception`, which is `None` when the loop
never caught anything) together with the final sleep count. -/
def attempt_loop (net : Nat → Except String (List SearchResult)) :
    Nat → Nat → Option String → Nat →
    (Except (Option String) (List SearchResult)) × Nat
  | _, 0, lastExc, sleeps => (.error lastExc, sleeps)
  | i, n + 1, _, sleeps =>
    match net i with
    | .ok v => (.ok v, sleeps)
    | .error e =>
      if n = 0 then (.error (some e), sleeps)
      else attempt_loop net (i + 1) n (some e) (sleeps + 1)

/-- What `mardi_kg_query.query_mardi_kg` raises after exhausting its
retries: the last exception (if any) plus the printed curl rendering of
the request. -/
structure RetryFailure where
  last_exception : Option String
  curl : String
deriving DecidableEq, Repr

namespace MardiKGQuery

/-- `tasks.mardi_kg_query.query_mardi_kg(arxiv_id, paper, max_retries,
retry_delay)`: retry the POST up to `max_retries` times with a fixed
delay, then print a curl rendering and re-raise the last exception; on
success, process the response exactly as the fetch.py variant does.  The
result's second component counts the `time.sleep` calls. -/
def query_mardi_kg (net : Nat → Except String (List SearchResult))
    (arxiv_id : String) (paper : Paper) (max_retries : Nat) :
    (Except RetryFailure (List Hit)) × Nat :=
  match attempt_loop net 0 max_retries none 0 with
  | (.ok search, s) => (.ok (results_of_response arxiv_id paper search), s)
  | (.error last, s) =>
    (.error { last_exception := last
              curl := generate_curl_command base_url (query_params arxiv_id) }, s)

end MardiKGQuery

/-! ### process_pwc_dump.py -/

/-- The loading loop of `process_pwc_dump` (lines 48-57): for each dump
entry take `paper.get("paper_arxiv_id")`; a falsy id is dropped silently;
an id already in `existing_ids` bumps `skip_count`; otherwise the pair
`(arxiv_id, paper)` is appended to `papers_to_process`.  Returns
`(papers_to_process, skip_count)`. -/
def collect_papers (existing : List String) : List Paper → List (String × Paper) × Nat
  | [] => ([], 0)
  | paper :: rest =>
    if truthy_str paper.paper_arxiv_id then
      let aid := paper.paper_arxiv_id.getD ""
      let r := collect_papers existing rest
      if aid ∈ existing then (r.1, r.2 + 1)
      else ((aid, paper) :: r.1, r.2)
    else
      collect_papers existing rest

/-- Slicing loop for `_batchify`, driven by a fuel counter so the
recursion is structural; with `size ≥ 1`, fuel `items.length` is always
enough, since every round drops at least one item. -/
def batchify_go (size : Nat) : Nat → List α → List (List α)
  | 0, _ => []
  | _, [] => []
  | fuel + 1, a :: l => (a :: l).take size :: batchify_go size fuel ((a :: l).drop size)

/-- `_batchify(items, size)`: successive slices `items[i:i+size]`.
(Python raises `ValueError` on `size = 0`; the embedding returns `[]`,
and every statement about batching assumes a positive size.) -/
def batchify (items : List α) (size : Nat) : List (List α) :=
  if size = 0 then [] else batchify_go size items.length items

/-- One batch of the dispatcher (lines 76-92): every future of the batch
is submitted and runs; results are aggregated; if any call raised, the
first error (in traversal order) is re-raised after the pool drains and
the aggregated hits are discarded (`insert_hits` is never reached). -/
def run_batch (query : String → Paper → Except String (List Hit)) :
    List (String × Paper) → Except String (List Hit)
  | [] => .ok []
  | (aid, p) :: rest =>
    match query aid p with
    | .error e => .error e
    | .ok hits =>
      match run_batch query rest with
      | .error e => .error e
      | .ok hs => .ok (hits ++ hs)

/-- The batch loop of `process_pwc_dump` (lines 69-108): process batches
sequentially; a fully successful batch is persisted in one `insert_hits`
call (guarded by `if batch_hits:`); a failing batch aborts the run with
the raised error, leaving the store as it was after the last persisted
batch.  Returns the final store and the raised error, if any. -/
def process_batches (query : String → Paper → Except String (List Hit))
    (now : String) :
    List (List (String × Paper)) → List Row → List Row × Option String
  | [], db => (db, none)
  | b :: rest, db =>
    match run_batch query b with
    | .error e => (db, some e)
    | .ok hits =>
      process_batches query now rest (if hits.isEmpty then db else insert_hits now hits db)

/-- `_load_existing_arxiv_ids` (`SELECT arxiv_id FROM hits`): the keys of
the store.  (The source returns a Python set; the embedding keeps the
list, and membership is all any caller uses.) -/
def load_existing_arxiv_ids (db : List Row) : List String :=
  db.map Row.arxiv_id

/-- `process_pwc_dump(db_path, json_input, batch_size, max_workers)`:
load the existing keys, collect the unseen papers from the dump, then run
the batch loop.  File-existence checking, logging and timing are omitted;
the worker count only parallelises calls and does not affect the result. -/
def process_pwc_dump (query : String → Paper → Except String (List Hit))
    (now : String) (papers : List Paper) (batch_size : Nat)
    (db : List Row) : List Row × Option String :=
  let existing := load_existing_arxiv_ids db
  let collected := collect_papers existing papers
  process_batches query now (batchify collected.1 batch_size) db

/-! ### mardi_kg_updates.py -/

/-- One remote knowledge-graph write as prepared by `_process_hit` /
`_update_kg_item_with_repo`: a P1687 statement on item `qid` with value
`repo_url` and references P1688 = `pwc_url`, P1689 = `harvested_from`,
written with replace-all semantics. -/
structure LinkWrite where
  qid : String
  repo_url : String
  pwc_url : String
  harvested_from : String
deriving DecidableEq, Repr

/-- `_load_hits`:
`SELECT * FROM hits WHERE updated_in_mardi_kg = 0 AND qid IS NOT NULL`. -/
def load_hits (db : List Row) : List Row :=
  db.filter (fun r => r.updated_in_mardi_kg = false ∧ r.qid ≠ none)

/-- `_mark_updated(db_path, arxiv_id)`:
`UPDATE hits SET updated_in_mardi_kg = 1 WHERE arxiv_id = ?`.  Only the
flag column is written; no other column (in particular not
`timestamp_added_to_mardikg`) is touched. -/
def mark_updated (db : List Row) (arxiv_id : String) : List Row :=
  db.map (fun r =>
    if r.arxiv_id = arxiv_id then { r with updated_in_mardi_kg := true } else r)

/-- The provenance label computed by `_process_hit`. -/
def harvested_from_of (hit : Row) : String :=
  if truthy_bool hit.mentioned_in_paper then "publication"
  else if truthy_bool hit.mentioned_in_github then "repository README"
  else "unknown"

/-- The remote write `_process_hit` attempts for a hit, or `none` when
the guard `if qid and repo_url and pwc_url` fails and the hit is skipped
with a warning. -/
def attempted_write (hit : Row) : Option LinkWrite :=
  if truthy_str hit.qid && truthy_str hit.repo_url && truthy_str hit.pwc_page then
    some { qid := hit.qid.getD ""
           repo_url := hit.repo_url.getD ""
           pwc_url := hit.pwc_page.getD ""
           harvested_from := harvested_from_of hit }
  else none

/-- `_process_hit(hit, db_path, mc)`: if the guard holds, perform the
remote write (`write`) and on success mark the row updated; a raised
write failure propagates and the row stays unmarked.  A skipped hit
leaves the store untouched. -/
def process_hit (write : LinkWrite → Except String Unit) (hit : Row)
    (db : List Row) : Except String (List Row) :=
  match attempted_write hit with
  | some w =>
    match write w with
    | .ok _ => .ok (mark_updated db hit.arxiv_id)
    | .error e => .error e
  | none => .ok db

/-- The outcome of `_process_hit` for one hit, seen from the
`as_completed` loop: `some e` when the future raised `e`. -/
def hit_outcome (write : LinkWrite → Except String Unit) (hit : Row) :
    Option String :=
  match attempted_write hit with
  | some w =>
    match write w with
    | .ok _ => none
    | .error e => some e
  | none => none

/-- One step of the publisher's result collection: the future's store
effect is applied; the first raised error is retained (the source logs
and re-raises the first failure it sees, while the pool still drains the
remaining, already submitted futures). -/
def link_step (write : LinkWrite → Except String Unit)
    (acc : List Row × Option String) (hit : Row) : List Row × Option String :=
  match process_hit write hit acc.1 with
  | .ok db2 => (db2, acc.2)
  | .error e => (acc.1, acc.2.orElse (fun _ => some e))

/-- `link_repos_to_mardi_kg(db_path, secrets_path)` after credentials and
client setup: load the pending hits, process each (every submitted future
executes), and return the final store together with the first raised
error, if any — a `some` second component models the run aborting by
re-raising that error. -/
def link_repos_to_mardi_kg (write : LinkWrite → Except String Unit)
    (db : List Row) : List Row × Option String :=
  (load_hits db).foldl (link_step write) (db, none)

/-! ### Concrete fixtures used by counterexamples and witnesses -/

/-- A dump entry matching the worked example of the specification. -/
def paper0 : Paper :=
  { paper_arxiv_id := some "2104.06175"
    repo_url := some "https://github.com/x/y"
    is_official := some true
    mentioned_in_paper := some true
    mentioned_in_github := some false
    paper_url := some "https://paperswithcode.com/paper/x" }

/-- A dump entry whose natural-key field is absent. -/
def paper_no_id : Paper :=
  { paper_arxiv_id := none
    repo_url := some "https://github.com/x/y"
    is_official := some true
    mentioned_in_paper := some true
    mentioned_in_github := some false
    paper_url := some "https://paperswithcode.com/paper/x" }

/-- A second dump entry with a distinct natural key. -/
def paper1 : Paper :=
  { paper_arxiv_id := some "1901.00001"
    repo_url := some "https://github.com/a/b"
    is_official := some false
    mentioned_in_paper := some false
    mentioned_in_github := some true
    paper_url := some "https://paperswithcode.com/paper/b" }

/-- A search-result entry whose snippet carries the worked example's
`QIDQ12345` pattern inside highlighting markup. -/
def sr_qid : SearchResult :=
  { title := some "Publication:12345"
    snippet := some "...<span class=\"searchmatch\">QIDQ12345</span>..." }

/-- A search-result entry whose snippet has no `QID` pattern. -/
def sr_no_qid : SearchResult :=
  { title := some "Publication:77"
    snippet := some "nothing to see here" }

/-- An already-published ledger row for the worked example's key. -/
def row_pub : Row :=
  { arxiv_id := "2104.06175"
    qid := some "Q12345"
    title := some "Publication:12345"
    repo_url := some "https://github.com/x/y"
    is_official := some true
    mentioned_in_paper := some true
    mentioned_in_github := some false
    pwc_page := some "https://paperswithcode.com/paper/x"
    snippet := "...QIDQ12345..."
    updated_in_mardi_kg := true
    timestamp_added_to_db := some "2025-01-01 00:00:00"
    timestamp_added_to_mardikg := none }

/-- The hit the enrichment path produces when the worked example's key is
re-ingested; note it carries no `updated_in_mardi_kg` key. -/
def hit_reingest : Hit := result_to_hit "2104.06175" paper0 sr_qid

/-! ### C1 -/

/-- C1: the claim says an upsert of a `SearchHit` with the natural key of
a row already marked published leaves the publish flag published.  The
code does the opposite: `insert_hits` setdefaults `updated_in_mardi_kg`
to `0` on a hit dict that (coming from `query_mardi_kg`) never carries
that key, and `INSERT OR REPLACE` replaces the whole row, so re-ingesting
the key of the published row `row_pub` resets its flag to unpublished.
The specification itself calls preserving the flag a required invariant
(section 9 open question), so this is recorded as a code bug; this
theorem evaluates the code at the failing input. -/
theorem insert_hits_resets_published_flag :
    row_pub.updated_in_mardi_kg = true ∧
    hit_reingest.arxiv_id = row_pub.arxiv_id ∧
    hit_reingest.updated_in_mardi_kg = none ∧
    (insert_hits "2025-02-02 00:00:00" [hit_reingest] [row_pub]).length = 1 ∧
    ∀ r ∈ insert_hits "2025-02-02 00:00:00" [hit_reingest] [row_pub],
      r.arxiv_id = "2104.06175" ∧ r.updated_in_mardi_kg = false := by
  refine ⟨rfl, rfl, rfl, rfl, ?_⟩
  decide

/-! ### C5 -/

/-- C5: an enrichment call whose remote response has zero result entries
returns exactly one SearchHit with null resolved identifier and null
title, copying the PaperRecord's repository URL, reference-page URL and
provenance flags (fetch.py lines 57-71, identically mardi_kg_query.py
lines 75-88). -/
theorem zero_results_placeholder (arxiv_id : String) (paper : Paper) :
    results_of_response arxiv_id paper [] =
      [{ qid := none
         arxiv_id := arxiv_id
         title := none
         repo_url := paper.repo_url
         is_official := paper.is_official
         mentioned_in_paper := paper.mentioned_in_paper
         mentioned_in_github := paper.mentioned_in_github
         pwc_page := paper.paper_url
         snippet := ""
         updated_in_mardi_kg := none
         timestamp_added_to_mardikg := none }] := rfl

/-! ### C7 -/

/-- C7: for every remote search result entry the produced hit's snippet
is the input snippet with the highlighting markup stripped, and its
resolved identifier is extracted from that cleaned snippet by the fixed
pattern (literal `QID` followed by a `Q`-and-digits token), null when the
pattern is absent; on the worked example, the snippet containing
`QIDQ12345` (inside markup) yields identifier `Q12345`, and the ledger
row written for that hit has publish flag false. -/
theorem snippet_qid_extraction :
    (∀ (arxiv_id : String) (paper : Paper) (r : SearchResult),
        (result_to_hit arxiv_id paper r).snippet = clean_snippet (r.snippet.getD "") ∧
        (result_to_hit arxiv_id paper r).qid =
          (qid_search (clean_snippet (r.snippet.getD "")).toList).map
            (fun l => (⟨l⟩ : String))) ∧
    clean_snippet "...<span class=\"searchmatch\">QIDQ12345</span>..." = "...QIDQ12345..." ∧
    (result_to_hit "2104.06175" paper0 sr_qid).qid = some "Q12345" ∧
    (result_to_hit "2104.06175" paper0 sr_no_qid).qid = none ∧
    ∀ r ∈ insert_hits "2025-01-01 00:00:00" [result_to_hit "2104.06175" paper0 sr_qid] [],
      r.arxiv_id = "2104.06175" ∧ r.qid = some "Q12345" ∧
      r.updated_in_mardi_kg = false := by
  refine ⟨fun arxiv_id paper r => ⟨rfl, rfl⟩, by decide, by decide, by decide, by decide⟩

/-! ### C10 -/

/-- C10: a dump entry whose natural-key field is absent or empty is
silently dropped by the loading loop: it is neither yielded nor counted
as skipped (process_pwc_dump.py lines 48-51, the `continue` before the
skip-count branch). -/
theorem missing_id_dropped_silently (existing : List String) (paper : Paper)
    (rest : List Paper) (h : truthy_str paper.paper_arxiv_id = false) :
    collect_papers existing (paper :: rest) = collect_papers existing rest := by
  simp [collect_papers, h]

/-- Witness for C10 at a concrete input: a dump entry with no
`paper_arxiv_id` contributes to neither the processed list nor the skip
count. -/
theorem missing_id_dropped_silently_witness :
    truthy_str paper_no_id.paper_arxiv_id = false ∧
    collect_papers ["1901.00001"] [paper_no_id, paper1] =
      collect_papers ["1901.00001"] [paper1] :=
  ⟨by decide, missing_id_dropped_silently ["1901.00001"] paper_no_id [paper1] (by decide)⟩

/-! ### C4 -/

/-- How the loading loop splits a dump whose entries all carry truthy
keys: the yielded list has one entry per key not already known, the skip
count is the number of already-known keys, and no yielded key is already
known. -/
theorem collect_papers_split (existing : List String) (papers : List Paper)
    (hall : ∀ p ∈ papers, truthy_str p.paper_arxiv_id = true) :
    (collect_papers existing papers).1.length =
      papers.length -
        papers.countP (fun p => decide ((p.paper_arxiv_id.getD "") ∈ existing)) ∧
    (collect_papers existing papers).2 =
      papers.countP (fun p => decide ((p.paper_arxiv_id.getD "") ∈ existing)) ∧
    ∀ q ∈ (collect_papers existing papers).1, q.1 ∉ existing := by
  induction papers with
  | nil => simp [collect_papers]
  | cons p rest ih =>
    have hp : truthy_str p.paper_arxiv_id = true := hall p (List.mem_cons_self p rest)
    have hrest : ∀ q ∈ rest, truthy_str q.paper_arxiv_id = true :=
      fun q hq => hall q (List.mem_cons_of_mem p hq)
    obtain ⟨ih1, ih2, ih3⟩ := ih hrest
    have hle : rest.countP (fun q => decide ((q.paper_arxiv_id.getD "") ∈ existing)) ≤ rest.length :=
      List.countP_le_length _
    by_cases hm : (p.paper_arxiv_id.getD "") ∈ existing
    · have hunf : collect_papers existing (p :: rest) =
          ((collect_papers existing rest).1, (collect_papers existing rest).2 + 1) := by
        simp [collect_papers, hp, hm]
      refine ⟨?_, ?_, ?_⟩
      · rw [hunf, List.countP_cons]
        simp only [List.length_cons, ih1]
        simp [hm]
      · rw [hunf, List.countP_cons]
        simp only [ih2]
        simp [hm]
      · intro q hq
        rw [hunf] at hq
        exact ih3 q hq
    · have hunf : collect_papers existing (p :: rest) =
          ((p.paper_arxiv_id.getD "", p) :: (collect_papers existing rest).1,
            (collect_papers existing rest).2) := by
        simp [collect_papers, hp, hm]
      refine ⟨?_, ?_, ?_⟩
      · rw [hunf, List.countP_cons]
        simp only [List.length_cons, ih1]
        simp [hm]
        omega
      · rw [hunf, List.countP_cons]
        simp only [ih2]
        simp [hm]
      · intro q hq
        rw [hunf] at hq
        rcases List.mem_cons.mp hq with hq1 | hq2
        · rw [hq1]; exact hm
        · exact ih3 q hq2

/-- C4: for a dump of `N` entries with (truthy) natural keys of which `M`
are already present in the ledger store at the start of the run, the
loading loop of `process_pwc_dump` yields exactly `N - M` records, counts
the `M` skipped ones in `skip_count` without yielding them, and no
yielded record's key is already present in the store — so a re-run never
reprocesses a key the store already holds. -/
theorem stream_cursor_resume (db : List Row) (papers : List Paper)
    (hall : ∀ p ∈ papers, truthy_str p.paper_arxiv_id = true) :
    (collect_papers (load_existing_arxiv_ids db) papers).1.length =
      papers.length -
        papers.countP
          (fun p => decide ((p.paper_arxiv_id.getD "") ∈ load_existing_arxiv_ids db)) ∧
    (collect_papers (load_existing_arxiv_ids db) papers).2 =
      papers.countP
        (fun p => decide ((p.paper_arxiv_id.getD "") ∈ load_existing_arxiv_ids db)) ∧
    ∀ q ∈ (collect_papers (load_existing_arxiv_ids db) papers).1,
      q.1 ∉ load_existing_arxiv_ids db :=
  collect_papers_split (load_existing_arxiv_ids db) papers hall

/-- Witness for C4 at a concrete input: a store holding key
`1901.00001`, a dump of two keyed entries, one already present: one
record yielded, one counted as skipped, none with a stored key. -/
theorem stream_cursor_resume_witness :
    (∀ p ∈ [paper0, paper1], truthy_str p.paper_arxiv_id = true) ∧
    (collect_papers (load_existing_arxiv_ids [row_pub]) [paper0, paper1]).1.length =
      2 - [paper0, paper1].countP
            (fun p => decide ((p.paper_arxiv_id.getD "") ∈ load_existing_arxiv_ids [row_pub])) ∧
    (collect_papers (load_existing_arxiv_ids [row_pub]) [paper0, paper1]).2 =
      [paper0, paper1].countP
        (fun p => decide ((p.paper_arxiv_id.getD "") ∈ load_existing_arxiv_ids [row_pub])) ∧
    ∀ q ∈ (collect_papers (load_existing_arxiv_ids [row_pub]) [paper0, paper1]).1,
      q.1 ∉ load_existing_arxiv_ids [row_pub] :=
  ⟨by decide, stream_cursor_resume [row_pub] [paper0, paper1] (by decide)⟩

/-! ### C8 -/

/-- An unpublished ledger row for the worked example's key, with a null
publication timestamp (as every row has: nothing in the repository ever
writes `timestamp_added_to_mardikg`). -/
def row_unpub : Row := { row_pub with updated_in_mardi_kg := false }

/-- Pointwise description of `mark_updated`: pairing the store with its
image, each output row is the input row with the flag set when the key
matches, and the input row itself otherwise. -/
theorem mark_zip (db : List Row) (aid : String) :
    ∀ p ∈ db.zip (mark_updated db aid),
      p.2 = if p.1.arxiv_id = aid then { p.1 with updated_in_mardi_kg := true }
            else p.1 := by
  induction db with
  | nil => intro p hp; simp [mark_updated] at hp
  | cons r rest ih =>
    intro p hp
    simp only [mark_updated, List.map_cons, List.zip_cons_cons] at hp
    rcases List.mem_cons.mp hp with h1 | h2
    · rw [h1]
    · exact ih p h2

/-- C8 (counterexample to the claim as stated): `_mark_updated` runs
`UPDATE hits SET updated_in_mardi_kg = 1 WHERE arxiv_id = ?` and nothing
else — it never stamps a publication timestamp.  On a store holding one
unpublished row for the key, the row's flag is flipped but its
`timestamp_added_to_mardikg` is still null afterwards, contradicting the
claim's "stamps its publication timestamp". -/
theorem mark_updated_stamps_no_timestamp :
    row_unpub.timestamp_added_to_mardikg = none ∧
    (mark_updated [row_unpub] "2104.06175").length = 1 ∧
    ∀ r ∈ mark_updated [row_unpub] "2104.06175",
      r.updated_in_mardi_kg = true ∧ r.timestamp_added_to_mardikg = none := by
  refine ⟨rfl, rfl, ?_⟩
  decide

/-- C8 (amended): for a natural key present in a store with unique keys,
`_mark_updated` sets the publish flag of exactly that one row, leaving
every other row untouched and every other field of the affected row —
including the publication timestamp, which it does not stamp —
unchanged. -/
theorem mark_updated_flips_exactly_one_flag (db : List Row) (aid : String)
    (hnd : (db.map Row.arxiv_id).Nodup) (hmem : aid ∈ db.map Row.arxiv_id) :
    (db.map Row.arxiv_id).count aid = 1 ∧
    (mark_updated db aid).length = db.length ∧
    ∀ p ∈ db.zip (mark_updated db aid),
      p.2.arxiv_id = p.1.arxiv_id ∧
      p.2.qid = p.1.qid ∧
      p.2.title = p.1.title ∧
      p.2.repo_url = p.1.repo_url ∧
      p.2.is_official = p.1.is_official ∧
      p.2.mentioned_in_paper = p.1.mentioned_in_paper ∧
      p.2.mentioned_in_github = p.1.mentioned_in_github ∧
      p.2.pwc_page = p.1.pwc_page ∧
      p.2.snippet = p.1.snippet ∧
      p.2.timestamp_added_to_db = p.1.timestamp_added_to_db ∧
      p.2.timestamp_added_to_mardikg = p.1.timestamp_added_to_mardikg ∧
      (p.1.arxiv_id = aid → p.2.updated_in_mardi_kg = true) ∧
      (p.1.arxiv_id ≠ aid → p.2 = p.1) := by
  refine ⟨List.count_eq_one_of_mem hnd hmem, by simp [mark_updated], ?_⟩
  intro p hp
  have h2 := mark_zip db aid p hp
  by_cases hr : p.1.arxiv_id = aid
  · rw [h2, if_pos hr]
    exact ⟨rfl, rfl, rfl, rfl, rfl, rfl, rfl, rfl, rfl, rfl, rfl,
      fun _ => rfl, fun hc => absurd hr hc⟩
  · rw [h2, if_neg hr]
    exact ⟨rfl, rfl, rfl, rfl, rfl, rfl, rfl, rfl, rfl, rfl, rfl,
      fun hc => absurd hc hr, fun _ => rfl⟩

/-- Witness for the amended C8 at a concrete input: a single-row store
holding the worked example's key. -/
theorem mark_updated_flips_exactly_one_flag_witness :
    ([row_unpub].map Row.arxiv_id).count "2104.06175" = 1 ∧
    (mark_updated [row_unpub] "2104.06175").length = [row_unpub].length ∧
    ∀ p ∈ [row_unpub].zip (mark_updated [row_unpub] "2104.06175"),
      p.2.arxiv_id = p.1.arxiv_id ∧
      p.2.qid = p.1.qid ∧
      p.2.title = p.1.title ∧
      p.2.repo_url = p.1.repo_url ∧
      p.2.is_official = p.1.is_official ∧
      p.2.mentioned_in_paper = p.1.mentioned_in_paper ∧
      p.2.mentioned_in_github = p.1.mentioned_in_github ∧
      p.2.pwc_page = p.1.pwc_page ∧
      p.2.snippet = p.1.snippet ∧
      p.2.timestamp_added_to_db = p.1.timestamp_added_to_db ∧
      p.2.timestamp_added_to_mardikg = p.1.timestamp_added_to_mardikg ∧
      (p.1.arxiv_id = "2104.06175" → p.2.updated_in_mardi_kg = true) ∧
      (p.1.arxiv_id ≠ "2104.06175" → p.2 = p.1) :=
  mark_updated_flips_exactly_one_flag [row_unpub] "2104.06175" (by decide) (by decide)

/-! ### C3 -/

/-- A network that fails transiently: attempt 0 raises, every later
attempt succeeds with an empty result list. -/
def net_transient : Nat → Except String (List SearchResult) :=
  fun i => if i = 0 then .error "ConnectionError" else .ok []

/-- A network that is down for good: every attempt raises. -/
def net_down : Nat → Except String (List SearchResult) :=
  fun _ => .error "HTTP 503"

/-- If every one of the next `n ≥ 1` attempts fails, the retry loop of
`mardi_kg_query.query_mardi_kg` performs exactly those `n` attempts with
`n - 1` sleeps in between and ends by re-raising the last exception. -/
theorem attempt_loop_exhausts (net : Nat → Except String (List SearchResult))
    (errs : Nat → String) (n : Nat) (hn : 1 ≤ n) :
    ∀ (i : Nat) (lastE : Option String) (sleeps : Nat),
      (∀ j, j < n → net (i + j) = .error (errs (i + j))) →
      attempt_loop net i n lastE sleeps =
        (.error (some (errs (i + n - 1))), sleeps + (n - 1)) := by
  induction n with
  | zero => omega
  | succ m ih =>
    intro i lastE sleeps hfail
    have h0 : net i = .error (errs i) := by
      have := hfail 0 (by omega)
      simpa using this
    cases m with
    | zero => simp [attempt_loop, h0]
    | succ k =>
      have hrec := ih (by omega) (i + 1) (some (errs i)) (sleeps + 1)
        (fun j hj => by
          have := hfail (j + 1) (by omega)
          have harg : i + (j + 1) = i + 1 + j := by omega
          rwa [harg] at this)
      have h1 : i + 1 + (k + 1) - 1 = i + (k + 1 + 1) - 1 := by omega
      have h2 : sleeps + 1 + (k + 1 - 1) = sleeps + (k + 1 + 1 - 1) := by omega
      rw [h1, h2] at hrec
      simp only [attempt_loop, h0]
      simp only [attempt_loop] at hrec
      simpa using hrec

/-- C3 (counterexample to the claim as stated): the pipeline imports its
enrichment client from `tasks.fetch` (process_pwc_dump.py line 5), whose
`query_mardi_kg` performs a single request — a transient failure on the
first attempt is propagated at once, with no retry, no delay, and no curl
rendering, even though a second attempt would have succeeded; the
repository's retrying variant (`tasks.mardi_kg_query.query_mardi_kg`,
which nothing imports) does recover from the same network behaviour. -/
theorem pipeline_enrichment_not_retried :
    Fetch.query_mardi_kg net_transient "2104.06175" paper0 = .error "ConnectionError" ∧
    (MardiKGQuery.query_mardi_kg net_transient "2104.06175" paper0 5).1 =
      .ok [no_match_hit "2104.06175" paper0] ∧
    (MardiKGQuery.query_mardi_kg net_transient "2104.06175" paper0 5).2 = 1 := by
  refine ⟨rfl, rfl, rfl⟩

/-- C3 (amended): the single-attempt client bound into the pipeline
propagates the first failure unchanged, while the unused
`mardi_kg_query` variant retries up to the configured bound with a fixed
delay between attempts (one sleep between consecutive attempts) and,
only after exhausting all attempts, propagates the last failure together
with the equivalent curl rendering of the request. -/
theorem enrichment_retry_in_unused_variant
    (net : Nat → Except String (List SearchResult)) (errs : Nat → String)
    (arxiv_id : String) (paper : Paper) (n : Nat) (hn : 1 ≤ n)
    (hfail : ∀ j, j < n → net j = .error (errs j)) :
    Fetch.query_mardi_kg net arxiv_id paper = .error (errs 0) ∧
    MardiKGQuery.query_mardi_kg net arxiv_id paper n =
      (.error { last_exception := some (errs (n - 1))
                curl := generate_curl_command base_url (query_params arxiv_id) },
        n - 1) := by
  constructor
  · have h0 : net 0 = .error (errs 0) := hfail 0 hn
    simp [Fetch.query_mardi_kg, h0]
  · have hloop := attempt_loop_exhausts net errs n hn 0 none 0
      (fun j hj => by simpa using hfail j hj)
    simp only [Nat.zero_add] at hloop
    simp [MardiKGQuery.query_mardi_kg, hloop]

/-- Witness for the amended C3 at a concrete input: a permanently failing
endpoint, bound 3. -/
theorem enrichment_retry_in_unused_variant_witness :
    Fetch.query_mardi_kg net_down "2104.06175" paper0 = .error "HTTP 503" ∧
    MardiKGQuery.query_mardi_kg net_down "2104.06175" paper0 3 =
      (.error { last_exception := some "HTTP 503"
                curl := generate_curl_command base_url (query_params "2104.06175") },
        2) :=
  enrichment_retry_in_unused_variant net_down (fun _ => "HTTP 503")
    "2104.06175" paper0 3 (by decide) (fun _ _ => rfl)

/-! ### C6 -/

/-- A batch in which every enrichment call returns. -/
def batch_all_ok (query : String → Paper → Except String (List Hit))
    (b : List (String × Paper)) : Prop :=
  ∀ x ∈ b, (query x.1 x.2).isOk = true

instance (query : String → Paper → Except String (List Hit))
    (b : List (String × Paper)) : Decidable (batch_all_ok query b) := by
  unfold batch_all_ok
  infer_instance

/-- The store produced by persisting a list of fully successful batches
in order (the error-free prefix of a dispatcher run). -/
def apply_batches (query : String → Paper → Except String (List Hit))
    (now : String) (bs : List (List (String × Paper))) (db : List Row) : List Row :=
  bs.foldl (fun d b =>
    match run_batch query b with
    | .ok hits => if hits.isEmpty then d else insert_hits now hits d
    | .error _ => d) db

/-- A batch with a failing call makes `run_batch` raise. -/
theorem run_batch_error (query : String → Paper → Except String (List Hit))
    (b : List (String × Paper)) (hbad : ¬ batch_all_ok query b) :
    ∃ e, run_batch query b = .error e := by
  induction b with
  | nil =>
    exact absurd (fun x hx => absurd hx (List.not_mem_nil x)) hbad
  | cons x rest ih =>
    obtain ⟨aid, p⟩ := x
    cases hq : query aid p with
    | error e => exact ⟨e, by simp [run_batch, hq]⟩
    | ok hits =>
      have hbad2 : ¬ batch_all_ok query rest := by
        intro hall
        apply hbad
        intro y hy
        rcases List.mem_cons.mp hy with h1 | h2
        · rw [h1]
          simp [hq, Except.isOk, Except.toBool]
        · exact hall y h2
      obtain ⟨e, he⟩ := ih hbad2
      exact ⟨e, by simp [run_batch, hq, he]⟩

/-- A batch whose calls all return makes `run_batch` return. -/
theorem run_batch_ok (query : String → Paper → Except String (List Hit))
    (b : List (String × Paper)) (hok : batch_all_ok query b) :
    ∃ hs, run_batch query b = .ok hs := by
  induction b with
  | nil => exact ⟨[], rfl⟩
  | cons x rest ih =>
    obtain ⟨aid, p⟩ := x
    cases hq : query aid p with
    | error e =>
      have := hok (aid, p) (List.mem_cons_self _ _)
      simp [hq, Except.isOk, Except.toBool] at this
    | ok hits =>
      obtain ⟨hs, hhs⟩ := ih (fun y hy => hok y (List.mem_cons_of_mem _ hy))
      exact ⟨hits ++ hs, by simp [run_batch, hq, hhs]⟩

/-- C6: when every batch before `b` succeeds and some enrichment call in
`b` raises, the dispatcher run aborts with that error: the second
component is `some` (the flow re-raises after the failing batch's pool
drains), the store holds exactly the batches before `b` (already
persisted work is not rolled back, the failing batch is not persisted),
and the batches after `b` contribute nothing — they are never
processed. -/
theorem batch_failure_aborts (query : String → Paper → Except String (List Hit))
    (now : String) (pre : List (List (String × Paper)))
    (b : List (String × Paper)) (post : List (List (String × Paper)))
    (db : List Row)
    (hok : ∀ bb ∈ pre, batch_all_ok query bb)
    (hbad : ¬ batch_all_ok query b) :
    (process_batches query now (pre ++ b :: post) db).2 ≠ none ∧
    (process_batches query now (pre ++ b :: post) db).1 =
      apply_batches query now pre db := by
  induction pre generalizing db with
  | nil =>
    obtain ⟨e, he⟩ := run_batch_error query b hbad
    simp [process_batches, he, apply_batches]
  | cons bb pre2 ih =>
    obtain ⟨hs, hhs⟩ := run_batch_ok query bb (hok bb (List.mem_cons_self _ _))
    have hrest := ih (if hs.isEmpty then db else insert_hits now hs db)
      (fun x hx => hok x (List.mem_cons_of_mem _ hx))
    refine ⟨?_, ?_⟩
    · simpa [process_batches, hhs] using hrest.1
    · have h1 : (process_batches query now ((bb :: pre2) ++ b :: post) db).1 =
          (process_batches query now (pre2 ++ b :: post)
            (if hs.isEmpty then db else insert_hits now hs db)).1 := by
        simp [process_batches, hhs]
      rw [h1, hrest.2]
      simp [apply_batches, hhs]

/-- An enrichment oracle that fails exactly on key `1901.00001` and
resolves every other key to the no-match placeholder. -/
def query_boom : String → Paper → Except String (List Hit) :=
  fun aid p => if aid = "1901.00001" then .error "boom" else .ok [no_match_hit aid p]

/-- Witness for C6 at a concrete input: first batch succeeds, second
fails, third is never processed; the final store holds exactly the first
batch. -/
theorem batch_failure_aborts_witness :
    (∀ bb ∈ [[("2104.06175", paper0)]], batch_all_ok query_boom bb) ∧
    ¬ batch_all_ok query_boom [("1901.00001", paper1)] ∧
    (process_batches query_boom "2025-01-01 00:00:00"
        ([[("2104.06175", paper0)]] ++ [("1901.00001", paper1)] ::
          [[("2222.22222", paper0)]]) []).2 ≠ none ∧
    (process_batches query_boom "2025-01-01 00:00:00"
        ([[("2104.06175", paper0)]] ++ [("1901.00001", paper1)] ::
          [[("2222.22222", paper0)]]) []).1 =
      apply_batches query_boom "2025-01-01 00:00:00" [[("2104.06175", paper0)]] [] :=
  ⟨by decide, by decide,
    batch_failure_aborts query_boom "2025-01-01 00:00:00"
      [[("2104.06175", paper0)]] [("1901.00001", paper1)]
      [[("2222.22222", paper0)]] [] (by decide) (by decide)⟩

/-! ### Publisher run characterization (for C2 and C9) -/

/-- A hit whose future succeeds: its guard passes and its remote write
returns. -/
def hit_success (write : LinkWrite → Except String Unit) (h : Row) : Prop :=
  attempted_write h ≠ none ∧ hit_outcome write h = none

instance (write : LinkWrite → Except String Unit) (h : Row) :
    Decidable (hit_success write h) := by
  unfold hit_success
  infer_instance

/-- The effect of one hit's future on one store row: set the flag when
the future succeeded and the keys match. -/
def row_step (write : LinkWrite → Except String Unit) (h x : Row) : Row :=
  if hit_success write h ∧ x.arxiv_id = h.arxiv_id then
    { x with updated_in_mardi_kg := true }
  else x

theorem row_step_id (write : LinkWrite → Except String Unit) (h x : Row) :
    (row_step write h x).arxiv_id = x.arxiv_id := by
  unfold row_step
  split <;> rfl

theorem load_hits_mem (db : List Row) (r : Row) :
    r ∈ load_hits db ↔
      r ∈ db ∧ r.updated_in_mardi_kg = false ∧ r.qid ≠ none := by
  simp [load_hits, List.mem_filter]

/-- One publisher step, componentwise: the store gets each row passed
through `row_step`, and the first error is retained. -/
theorem link_step_eq (write : LinkWrite → Except String Unit)
    (db : List Row) (err : Option String) (h : Row) :
    link_step write (db, err) h =
      (db.map (row_step write h),
       Option.orElse err (fun _ => hit_outcome write h)) := by
  cases ha : attempted_write h with
  | none =>
    have hns : ¬ hit_success write h := fun hs => hs.1 ha
    have hmap : db.map (row_step write h) = db := by
      have hcong : ∀ x ∈ db, row_step write h x = x := by
        intro x _
        unfold row_step
        rw [if_neg]
        rintro ⟨hs, _⟩
        exact hns hs
      calc db.map (row_step write h) = db.map id := List.map_congr_left hcong
        _ = db := List.map_id db
    simp only [link_step, process_hit, ha, hit_outcome]
    rw [hmap]
    cases err <;> rfl
  | some w =>
    cases hw : write w with
    | ok u =>
      have hs : hit_success write h :=
        ⟨by simp [ha], by simp [hit_outcome, ha, hw]⟩
      have hmap : db.map (row_step write h) = mark_updated db h.arxiv_id := by
        unfold mark_updated
        apply List.map_congr_left
        intro x _
        unfold row_step
        by_cases hid : x.arxiv_id = h.arxiv_id
        · rw [if_pos ⟨hs, hid⟩, if_pos hid]
        · rw [if_neg (fun hc => hid hc.2), if_neg hid]
      have hout : hit_outcome write h = none := by simp [hit_outcome, ha, hw]
      simp only [link_step, process_hit, ha, hw]
      rw [hmap, hout]
      cases err <;> rfl
    | error e =>
      have hout : hit_outcome write h = some e := by simp [hit_outcome, ha, hw]
      have hns : ¬ hit_success write h := by
        rintro ⟨_, h2⟩
        rw [hout] at h2
        cases h2
      have hmap : db.map (row_step write h) = db := by
        have hcong : ∀ x ∈ db, row_step write h x = x := by
          intro x _
          unfold row_step
          rw [if_neg]
          rintro ⟨hs, _⟩
          exact hns hs
        calc db.map (row_step write h) = db.map id := List.map_congr_left hcong
          _ = db := List.map_id db
      simp only [link_step, process_hit, ha, hw]
      rw [hmap, hout]

/-- The whole publisher fold, componentwise. -/
theorem link_fold (write : LinkWrite → Except String Unit) (hits : List Row) :
    ∀ (db : List Row) (err : Option String),
      hits.foldl (link_step write) (db, err) =
        (db.map (fun r => hits.foldl (fun x h => row_step write h x) r),
         hits.foldl (fun a h => Option.orElse a (fun _ => hit_outcome write h)) err) := by
  induction hits with
  | nil => intro db err; simp
  | cons h t ih =>
    intro db err
    rw [List.foldl_cons, link_step_eq, ih, List.map_map]
    simp [List.foldl_cons, Function.comp]

theorem set_flag_self (r : Row) (hr : r.updated_in_mardi_kg = true) :
    ({ r with updated_in_mardi_kg := true } : Row) = r := by
  cases r
  simp_all

/-- A row whose flag is already set passes through the whole row fold
unchanged. -/
theorem row_fold_flag_true (write : LinkWrite → Except String Unit)
    (hits : List Row) : ∀ (r : Row), r.updated_in_mardi_kg = true →
      hits.foldl (fun x h => row_step write h x) r = r := by
  induction hits with
  | nil => intro r _; rfl
  | cons h t ih =>
    intro r hr
    rw [List.foldl_cons]
    have hstep : row_step write h r = r := by
      unfold row_step
      split
      · exact set_flag_self r hr
      · rfl
    rw [hstep]
    exact ih r hr

/-- The row fold either sets the flag (when some successful hit shares
the row's key) or returns the row unchanged. -/
theorem row_fold_eq (write : LinkWrite → Except String Unit)
    (hits : List Row) : ∀ (r : Row),
      hits.foldl (fun x h => row_step write h x) r =
        if ∃ h ∈ hits, hit_success write h ∧ r.arxiv_id = h.arxiv_id then
          { r with updated_in_mardi_kg := true }
        else r := by
  induction hits with
  | nil => intro r; simp
  | cons h t ih =>
    intro r
    rw [List.foldl_cons]
    by_cases hc : hit_success write h ∧ r.arxiv_id = h.arxiv_id
    · have hstep : row_step write h r = { r with updated_in_mardi_kg := true } := by
        unfold row_step
        rw [if_pos hc]
      rw [hstep, row_fold_flag_true write t _ rfl, if_pos ⟨h, List.mem_cons_self _ _, hc⟩]
    · have hstep : row_step write h r = r := by
        unfold row_step
        rw [if_neg hc]
      rw [hstep, ih r]
      by_cases hex : ∃ h2 ∈ t, hit_success write h2 ∧ r.arxiv_id = h2.arxiv_id
      · obtain ⟨h2, hh2, hc2⟩ := hex
        rw [if_pos ⟨h2, hh2, hc2⟩, if_pos ⟨h2, List.mem_cons_of_mem _ hh2, hc2⟩]
      · rw [if_neg hex, if_neg]
        rintro ⟨h2, hh2, hc2⟩
        rcases List.mem_cons.mp hh2 with h3 | h4
        · exact hc (h3 ▸ hc2)
        · exact hex ⟨h2, h4, hc2⟩

/-- The row fold never changes a row's key. -/
theorem row_fold_id (write : LinkWrite → Except String Unit)
    (hits : List Row) (r : Row) :
    (hits.foldl (fun x h => row_step write h x) r).arxiv_id = r.arxiv_id := by
  rw [row_fold_eq]
  split <;> rfl

/-- The error accumulator ends at `none` exactly when it started at
`none` and no future raised. -/
theorem err_fold_none_iff (write : LinkWrite → Except String Unit)
    (hits : List Row) : ∀ (err : Option String),
      hits.foldl (fun a h => Option.orElse a (fun _ => hit_outcome write h)) err = none ↔
        (err = none ∧ ∀ h ∈ hits, hit_outcome write h = none) := by
  induction hits with
  | nil => intro err; simp
  | cons h t ih =>
    intro err
    rw [List.foldl_cons, ih]
    constructor
    · rintro ⟨h1, h2⟩
      have hboth : err = none ∧ hit_outcome write h = none := by
        cases err with
        | none => exact ⟨rfl, h1⟩
        | some a => cases h1
      refine ⟨hboth.1, fun x hx => ?_⟩
      rcases List.mem_cons.mp hx with h3 | h4
      · rw [h3]; exact hboth.2
      · exact h2 x h4
    · rintro ⟨h1, h2⟩
      refine ⟨?_, fun x hx => h2 x (List.mem_cons_of_mem _ hx)⟩
      rw [h1]
      exact h2 h (List.mem_cons_self _ _)

/-! ### C2 -/

/-- A remote graph that rejects every write. -/
def write_fail : LinkWrite → Except String Unit := fun _ => .error "HTTP 500"

/-- A remote graph that rejects exactly the write targeting `Q12345`. -/
def write_sel : LinkWrite → Except String Unit :=
  fun w => if w.qid = "Q12345" then .error "HTTP 500" else .ok ()

/-- A second publishable row with a distinct key and target item. -/
def row_b : Row :=
  { arxiv_id := "1901.00001"
    qid := some "Q67890"
    title := some "Publication:67890"
    repo_url := some "https://github.com/a/b"
    is_official := some false
    mentioned_in_paper := some false
    mentioned_in_github := some true
    pwc_page := some "https://paperswithcode.com/paper/b"
    snippet := ""
    updated_in_mardi_kg := false
    timestamp_added_to_db := some "2025-01-01 00:00:00"
    timestamp_added_to_mardikg := none }

/-- C2 (counterexample to the claim as stated): `link_repos_to_mardi_kg`
has no configuration option for failure handling — the `except` branch
always logs and then unconditionally `raise`s.  On a store with one
publishable row whose remote write fails, the run re-raises the failure
(aborts) even though nothing requested escalation; the claim says
aborting happens only when a configurable option requests it. -/
theorem publisher_always_aborts_on_failure :
    (link_repos_to_mardi_kg write_fail [row_unpub]).2 = some "HTTP 500" ∧
    (link_repos_to_mardi_kg write_fail [row_unpub]).1 = [row_unpub] := by
  refine ⟨rfl, by decide⟩

/-- C2 (amended): when a remote write fails for one row, the failure is
retained and re-raised — the run always aborts, unconditionally, there
being no configuration option — while the failing row remains
unpublished and the remaining rows are still processed (every submitted
future runs; rows whose writes succeed are still marked published). -/
theorem publisher_failure_logged_and_reraised
    (write : LinkWrite → Except String Unit) (db : List Row) (hit : Row)
    (e : String)
    (hnd : (db.map Row.arxiv_id).Nodup)
    (hmem : hit ∈ load_hits db)
    (hfail : hit_outcome write hit = some e) :
    (link_repos_to_mardi_kg write db).2 ≠ none ∧
    (∀ r ∈ (link_repos_to_mardi_kg write db).1,
        r.arxiv_id = hit.arxiv_id → r.updated_in_mardi_kg = false) ∧
    (∀ h2 ∈ load_hits db, hit_success write h2 →
      ∀ r ∈ (link_repos_to_mardi_kg write db).1,
        r.arxiv_id = h2.arxiv_id → r.updated_in_mardi_kg = true) := by
  have hinj := List.inj_on_of_nodup_map hnd
  have hhitdb : hit ∈ db := ((load_hits_mem db hit).mp hmem).1
  have hhitflag : hit.updated_in_mardi_kg = false := ((load_hits_mem db hit).mp hmem).2.1
  unfold link_repos_to_mardi_kg
  rw [link_fold]
  refine ⟨?_, ?_, ?_⟩
  · intro hnone
    rw [err_fold_none_iff] at hnone
    have := hnone.2 hit hmem
    rw [hfail] at this
    cases this
  · intro r hr hrid
    obtain ⟨r0, hr0, hfr0⟩ := List.mem_map.mp hr
    have hid0 : r0.arxiv_id = hit.arxiv_id := by
      rw [← hrid, ← hfr0, row_fold_id]
    rw [← hfr0, row_fold_eq]
    rw [if_neg]
    · have : r0 = hit := hinj hr0 hhitdb hid0
      rw [this]
      exact hhitflag
    · rintro ⟨h2, hh2, hsucc, hid2⟩
      have hh2db : h2 ∈ db := ((load_hits_mem db h2).mp hh2).1
      have : h2 = hit := hinj hh2db hhitdb (by rw [← hid2, hid0])
      rw [this] at hsucc
      rw [hsucc.2] at hfail
      cases hfail
  · intro h2 hh2 hsucc r hr hrid
    obtain ⟨r0, hr0, hfr0⟩ := List.mem_map.mp hr
    have hid0 : r0.arxiv_id = h2.arxiv_id := by
      rw [← hrid, ← hfr0, row_fold_id]
    rw [← hfr0, row_fold_eq, if_pos ⟨h2, hh2, hsucc, hid0⟩]

/-- Witness for the amended C2 at a concrete input: a two-row store, the
write to `Q12345` fails, the write to `Q67890` succeeds; the run aborts,
the failed row stays unpublished, the successful row gets marked. -/
theorem publisher_failure_logged_and_reraised_witness :
    (link_repos_to_mardi_kg write_sel [row_unpub, row_b]).2 ≠ none ∧
    (∀ r ∈ (link_repos_to_mardi_kg write_sel [row_unpub, row_b]).1,
        r.arxiv_id = row_unpub.arxiv_id → r.updated_in_mardi_kg = false) ∧
    (∀ h2 ∈ load_hits [row_unpub, row_b], hit_success write_sel h2 →
      ∀ r ∈ (link_repos_to_mardi_kg write_sel [row_unpub, row_b]).1,
        r.arxiv_id = h2.arxiv_id → r.updated_in_mardi_kg = true) :=
  publisher_failure_logged_and_reraised write_sel [row_unpub, row_b] row_unpub
    "HTTP 500" (by decide) (by decide) (by decide)

/-! ### C9 -/

/-- A pending row (null flag, resolved identifier present) whose
repository URL is missing. -/
def row_norepo : Row :=
  { arxiv_id := "3333.33333"
    qid := some "Q77777"
    title := some "Publication:77777"
    repo_url := none
    is_official := some true
    mentioned_in_paper := some true
    mentioned_in_github := some false
    pwc_page := some "https://paperswithcode.com/paper/c"
    snippet := ""
    updated_in_mardi_kg := false
    timestamp_added_to_db := some "2025-01-01 00:00:00"
    timestamp_added_to_mardikg := none }

/-- C9: a row selected into the publisher's work queue (flag unset,
resolved identifier non-null) whose repository URL or reference-page URL
is falsy fails `_process_hit`'s guard: no remote write is attempted, the
store is unchanged, and after a whole publisher run the row is still
selected by the work-queue query — it reappears on every subsequent
run. -/
theorem publisher_skips_incomplete_row (db : List Row) (hit : Row)
    (hnd : (db.map Row.arxiv_id).Nodup)
    (hmem : hit ∈ load_hits db)
    (hmiss : truthy_str hit.repo_url = false ∨ truthy_str hit.pwc_page = false) :
    attempted_write hit = none ∧
    (∀ write, process_hit write hit db = .ok db) ∧
    (∀ write, hit ∈ load_hits ((link_repos_to_mardi_kg write db).1)) := by
  have hinj := List.inj_on_of_nodup_map hnd
  have hhitdb : hit ∈ db := ((load_hits_mem db hit).mp hmem).1
  have hpred := (load_hits_mem db hit).mp hmem
  have hatt : attempted_write hit = none := by
    unfold attempted_write
    rcases hmiss with h | h <;> simp [h]
  refine ⟨hatt, ?_, ?_⟩
  · intro write
    simp [process_hit, hatt]
  · intro write
    unfold link_repos_to_mardi_kg
    rw [link_fold]
    have hfix : (load_hits db).foldl (fun x h => row_step write h x) hit = hit := by
      rw [row_fold_eq, if_neg]
      rintro ⟨h2, hh2, hsucc, hid2⟩
      have hh2db : h2 ∈ db := ((load_hits_mem db h2).mp hh2).1
      have : h2 = hit := hinj hh2db hhitdb hid2.symm
      rw [this] at hsucc
      exact hsucc.1 hatt
    rw [load_hits_mem]
    refine ⟨?_, hpred.2.1, hpred.2.2⟩
    have hmem2 := List.mem_map_of_mem
      (fun r => (load_hits db).foldl (fun x h => row_step write h x) r) hhitdb
    simp only at hmem2
    rw [hfix] at hmem2
    exact hmem2

/-- Witness for C9 at a concrete input: a one-row store whose pending
row lacks a repository URL; no write is attempted under the
always-failing and the selective remote, the store is unchanged, and
the row is still in the work queue after a run. -/
theorem publisher_skips_incomplete_row_witness :
    attempted_write row_norepo = none ∧
    process_hit write_fail row_norepo [row_norepo] = .ok [row_norepo] ∧
    row_norepo ∈ load_hits ((link_repos_to_mardi_kg write_fail [row_norepo]).1) :=
  ⟨(publisher_skips_incomplete_row [row_norepo] row_norepo (by decide) (by decide)
      (by decide)).1,
   (publisher_skips_incomplete_row [row_norepo] row_norepo (by decide) (by decide)
      (by decide)).2.1 write_fail,
   (publisher_skips_incomplete_row [row_norepo] row_norepo (by decide) (by decide)
      (by decide)).2.2 write_fail⟩
